import Mathlib

/-!
Verification of the coordinate parsing and conversion core of the
polish-airports converter (src/main.rs).

Modelling conventions (shallow embedding):

* Rust `&str` values are modelled as `List Char`.  Rust's byte-based slicing
  `&s[a..b]` is modelled byte-faithfully by `sliceRange`/`sliceFrom` on top of
  `Char.utf8Size`: they return `none` exactly when the Rust slice would panic,
  that is when an index exceeds the UTF-8 byte length, when an index falls
  inside a multi-byte character (not a character boundary), or when the start
  exceeds the end.
* Rust `i32`/`u32` parsing (`str::parse`) is modelled by `parseI32`/`parseU32`:
  an optional sign (`+` for unsigned; `+`/`-` for signed) followed by a
  non-empty run of decimal digits, with the i32/u32 range checks made explicit.
* Rust `f32` and its `str::parse` are modelled over `ℚ` with exact arithmetic,
  covering the plain decimal forms (optional sign, integer part, optional `.`
  and fraction).  Exponents and `inf`/`nan` spellings are not modelled; no
  claim depends on them, and every concrete input used below is plain decimal.
* A Rust function that can panic is modelled with an explicit `panic`
  constructor in its result type, distinct from the `Err` constructor of its
  declared error type.
-/

namespace PolishAirports

/-- Numeric value of a digit character (`c as u32 - '0' as u32`). -/
def digitVal (c : Char) : Nat := c.toNat - 48

/-- Accumulator form of decimal-digit-string evaluation (most significant digit
first, as Rust's integer parsing does). -/
def digitsValAux : Nat → List Char → Nat
  | acc, [] => acc
  | acc, c :: r => digitsValAux (10 * acc + digitVal c) r

/-- Value of a decimal digit string. -/
def digitsVal (s : List Char) : Nat := digitsValAux 0 s

/-- All characters are decimal digits. -/
def isDigits (s : List Char) : Bool := s.all Char.isDigit

/-- A non-empty all-digit string parses to its value; anything else fails.
This is the digit-run core shared by the Rust integer parsers. -/
def parseDigits (s : List Char) : Option Nat :=
  if s ≠ [] ∧ isDigits s then some (digitsVal s) else none

/-- Rust `str::parse::<i32>`: optional `+`/`-` sign, non-empty digit run,
value within the i32 range. -/
def parseI32 (s : List Char) : Option Int :=
  if s.headD '0' = '+' then
    (parseDigits s.tail).bind (fun n => if n ≤ 2147483647 then some ((n : Int)) else none)
  else if s.headD '0' = '-' then
    (parseDigits s.tail).bind (fun n => if n ≤ 2147483648 then some (-(n : Int)) else none)
  else
    (parseDigits s).bind (fun n => if n ≤ 2147483647 then some ((n : Int)) else none)

/-- Rust `str::parse::<u32>`: optional `+` sign (a `-` makes the digit run
fail), non-empty digit run, value within the u32 range. -/
def parseU32 (s : List Char) : Option Nat :=
  if s.headD '0' = '+' then
    (parseDigits s.tail).bind (fun n => if n ≤ 4294967295 then some n else none)
  else
    (parseDigits s).bind (fun n => if n ≤ 4294967295 then some n else none)

/-- Rust `str::split_once` with a single-character pattern: split at the first
occurrence of `d`, which is removed; `none` when `d` does not occur. -/
def splitOnce : List Char → Char → Option (List Char × List Char)
  | [], _ => none
  | c :: r, d =>
    if c = d then some ([], r)
    else (splitOnce r d).map (fun p => (c :: p.1, p.2))

/-- Unsigned decimal-form core of Rust `str::parse::<f32>`: either a non-empty
digit run, or an integer part and a fraction part separated by one `.` with at
least one digit overall.  Exact value over `ℚ`. -/
def parseF32core (t : List Char) : Option ℚ :=
  match splitOnce t '.' with
  | none => (parseDigits t).map (fun n => ((n : ℚ)))
  | some pr =>
    if (pr.1 ≠ [] ∨ pr.2 ≠ []) ∧ isDigits pr.1 ∧ isDigits pr.2 then
      some ((digitsVal pr.1 : ℚ) + (digitsVal pr.2 : ℚ) / (10 : ℚ) ^ pr.2.length)
    else none

/-- Rust `str::parse::<f32>` on plain decimal forms: optional sign, then the
unsigned decimal core. -/
def parseF32 (s : List Char) : Option ℚ :=
  if s.headD '0' = '+' then parseF32core s.tail
  else if s.headD '0' = '-' then (parseF32core s.tail).map (fun q => -q)
  else parseF32core s

/-- The characters of `s` after UTF-8 byte index `a`: `some` exactly when `a`
is a character boundary no greater than the byte length, `none` otherwise
(modelling the Rust slice panic, including an index inside a multi-byte
character). -/
def dropBytes : List Char → Nat → Option (List Char)
  | s, 0 => some s
  | [], _ + 1 => none
  | c :: r, a + 1 =>
    if c.utf8Size ≤ a + 1 then dropBytes r (a + 1 - c.utf8Size) else none

/-- The characters of `s` before UTF-8 byte index `a`: `some` exactly when `a`
is a character boundary no greater than the byte length, `none` otherwise. -/
def takeBytes : List Char → Nat → Option (List Char)
  | _, 0 => some []
  | [], _ + 1 => none
  | c :: r, a + 1 =>
    if c.utf8Size ≤ a + 1 then (takeBytes r (a + 1 - c.utf8Size)).map (fun t => c :: t)
    else none

/-- Rust `&s[a..b]` with byte indices: `none` models the panic, raised when
`a > b`, when an index exceeds the byte length, or when an index falls inside
a multi-byte character. -/
def sliceRange (s : List Char) (a b : Nat) : Option (List Char) :=
  if a ≤ b then (dropBytes s a).bind (fun t => takeBytes t (b - a)) else none

/-- Rust `&s[a..]` with a byte index: `none` models the panic, raised when `a`
exceeds the byte length or falls inside a multi-byte character. -/
def sliceFrom (s : List Char) (a : Nat) : Option (List Char) :=
  dropBytes s a

/-- `struct Coordinate { degrees: i32, minutes: u32, seconds: f32 }`. -/
structure Coordinate where
  degrees : Int
  minutes : Nat
  seconds : ℚ
deriving DecidableEq

/-- Outcome of `Coordinate::from_str`: `ok`, the returned
`Err(ParseCoordinateError)`, or a Rust panic (out-of-bounds slice). -/
inductive CoordResult where
  | ok (c : Coordinate)
  | err
  | panic
deriving DecidableEq

/-- The `sign` match in `Coordinate::from_str`: N/E positive, W/S negative,
anything else is the `ParseCoordinateError` early return (`none` here). -/
def hemisphereSign (c : Char) : Option Int :=
  if c = 'N' then some 1
  else if c = 'E' then some 1
  else if c = 'W' then some (-1)
  else if c = 'S' then some (-1)
  else none

/-- The `offset` match in `Coordinate::from_str`: 1 for E/W, 0 otherwise. -/
def hemisphereOffset (c : Char) : Nat :=
  if c = 'E' then 1 else if c = 'W' then 1 else 0

/-- `Coordinate::from_str` (src/main.rs lines 20-46), step for step:
`s.chars().nth(0).unwrap_or('N')`, the sign and offset matches, then the three
fixed-width slices `&s[1..3+offset]`, `&s[3+offset..5+offset]`,
`&s[5+offset..]`, each parsed with `?`-propagation of the parse failure. -/
def Coordinate.from_str (s : List Char) : CoordResult :=
  let nth := s.headD 'N'
  match hemisphereSign nth with
  | none => .err
  | some sign =>
    let offset := hemisphereOffset nth
    match sliceRange s 1 (3 + offset) with
    | none => .panic
    | some degStr =>
      match parseI32 degStr with
      | none => .err
      | some degv =>
        match sliceRange s (3 + offset) (5 + offset) with
        | none => .panic
        | some minStr =>
          match parseU32 minStr with
          | none => .err
          | some minv =>
            match sliceFrom s (5 + offset) with
            | none => .panic
            | some secStr =>
              match parseF32 secStr with
              | none => .err
              | some secv => .ok ⟨sign * degv, minv, secv⟩

/-- `Coordinate::to_decimal_degrees` (src/main.rs lines 49-55), with `f32`
arithmetic modelled exactly over `ℚ`. -/
def Coordinate.to_decimal_degrees (c : Coordinate) : ℚ :=
  let minutes : ℚ := (c.minutes : ℚ) / 60
  let seconds : ℚ := c.seconds / 3600
  let degrees : ℚ := (c.degrees : ℚ)
  degrees + minutes + seconds

/-- `struct Position { lat: Coordinate, lon: Coordinate }`. -/
structure Position where
  lat : Coordinate
  lon : Coordinate
deriving DecidableEq

/-- Outcome of `Position::from_str`: `ok`, the declared
`Err(ParsePositionError)`, or a Rust panic (from one of the `unwrap` calls, or
from a panic inside `Coordinate::from_str`). -/
inductive PosResult where
  | ok (p : Position)
  | err
  | panic
deriving DecidableEq

/-- `Position::from_str` (src/main.rs lines 64-72):
`split_once(" ").unwrap()` panics when there is no space, and each sub-token is
parsed with `Coordinate::from_str(..).unwrap()`, which panics on `Err` (and
propagates a panic from inside the coordinate parser). -/
def Position.from_str (s : List Char) : PosResult :=
  match splitOnce s ' ' with
  | none => .panic
  | some pr =>
    match Coordinate.from_str pr.1 with
    | .ok lat =>
      match Coordinate.from_str pr.2 with
      | .ok lon => .ok ⟨lat, lon⟩
      | .err => .panic
      | .panic => .panic
    | .err => .panic
    | .panic => .panic

/-- The output row `struct Waypoint` (src/main.rs lines 76-103). -/
structure Waypoint where
  waypoint_type : List Char
  name : List Char
  ident : List Char
  latitude : ℚ
  longitude : ℚ
  (elevation magnetic_declination : Option ℚ)
  (tags description region last_edit import_filename : Option (List Char))
  visible_from : Option Int
deriving DecidableEq

/-- `Waypoint::from_position` (src/main.rs lines 106-124).  The Rust function
returns `Result<Self, Box<dyn Error>>` but has no error path; the error type is
modelled as `Unit`. -/
def Waypoint.from_position (p : Position) (name : List Char) (elevation : Option ℚ) :
    Except Unit Waypoint :=
  Except.ok
    { waypoint_type := "Airstrip".toList
      name := name
      ident := name
      latitude := Coordinate.to_decimal_degrees p.lat
      longitude := Coordinate.to_decimal_degrees p.lon
      elevation := elevation
      magnetic_declination := none
      tags := none
      description := none
      region := some "EP".toList
      visible_from := none
      last_edit := none
      import_filename := some "skydemon_PL_missing.airfields.xml".toList }

theorem digitVal_le_nine {c : Char} (h : c.isDigit = true) : digitVal c ≤ 9 := by
  simp only [Char.isDigit, Bool.and_eq_true, decide_eq_true_eq] at h
  have h2 : c.val.toNat ≤ 57 := UInt32.toNat_le_of_le (by norm_num) h.2
  simp only [digitVal, Char.toNat]
  omega

theorem isDigits_cons {c : Char} {r : List Char} (h : isDigits (c :: r) = true) :
    c.isDigit = true ∧ isDigits r = true := by
  simpa [isDigits, List.all_cons, Bool.and_eq_true] using h

theorem isDigits_not_mem {s : List Char} (hs : isDigits s = true) {c : Char}
    (hc : c.isDigit = false) : c ∉ s := by
  intro hmem
  have hd := List.all_eq_true.mp hs c hmem
  rw [hc] at hd
  exact Bool.false_ne_true hd

theorem digitsValAux_nil (acc : Nat) : digitsValAux acc [] = acc := rfl

theorem digitsValAux_cons (acc : Nat) (c : Char) (r : List Char) :
    digitsValAux acc (c :: r) = digitsValAux (10 * acc + digitVal c) r := rfl

theorem digitsValAux_lt : ∀ (s : List Char), isDigits s = true →
    ∀ acc : Nat, digitsValAux acc s < (acc + 1) * 10 ^ s.length := by
  intro s
  induction s with
  | nil =>
    intro _ acc
    rw [digitsValAux_nil]
    simp
  | cons c r ih =>
    intro hs acc
    obtain ⟨hc, hr⟩ := isDigits_cons hs
    have hd : digitVal c ≤ 9 := digitVal_le_nine hc
    have hstep := ih hr (10 * acc + digitVal c)
    rw [digitsValAux_cons, List.length_cons]
    calc digitsValAux (10 * acc + digitVal c) r
        < (10 * acc + digitVal c + 1) * 10 ^ r.length := hstep
      _ ≤ ((acc + 1) * 10) * 10 ^ r.length := Nat.mul_le_mul_right _ (by omega)
      _ = (acc + 1) * 10 ^ (r.length + 1) := by ring

theorem digitsVal_lt {s : List Char} (hs : isDigits s = true) :
    digitsVal s < 10 ^ s.length := by
  simpa [digitsVal] using digitsValAux_lt s hs 0

theorem parseDigits_digits {s : List Char} (hne : s ≠ []) (hs : isDigits s = true) :
    parseDigits s = some (digitsVal s) := by
  unfold parseDigits
  rw [if_pos ⟨hne, hs⟩]

theorem headD_isDigit {s : List Char} (hne : s ≠ []) (hs : isDigits s = true) :
    (s.headD '0').isDigit = true := by
  cases s with
  | nil => exact absurd rfl hne
  | cons c r => exact (isDigits_cons hs).1

theorem headD_ne_plus {s : List Char} (hne : s ≠ []) (hs : isDigits s = true) :
    ¬ s.headD '0' = '+' := by
  intro e
  have hd := headD_isDigit hne hs
  rw [e] at hd
  exact absurd hd (by decide)

theorem headD_ne_minus {s : List Char} (hne : s ≠ []) (hs : isDigits s = true) :
    ¬ s.headD '0' = '-' := by
  intro e
  have hd := headD_isDigit hne hs
  rw [e] at hd
  exact absurd hd (by decide)

theorem parseI32_digits {s : List Char} (hne : s ≠ []) (hs : isDigits s = true)
    (hb : digitsVal s ≤ 2147483647) : parseI32 s = some ((digitsVal s : Int)) := by
  unfold parseI32
  rw [if_neg (headD_ne_plus hne hs), if_neg (headD_ne_minus hne hs),
    parseDigits_digits hne hs]
  simp [hb]

theorem parseU32_digits {s : List Char} (hne : s ≠ []) (hs : isDigits s = true)
    (hb : digitsVal s ≤ 4294967295) : parseU32 s = some (digitsVal s) := by
  unfold parseU32
  rw [if_neg (headD_ne_plus hne hs), parseDigits_digits hne hs]
  simp [hb]

theorem splitOnce_eq_none {s : List Char} {d : Char} (h : d ∉ s) : splitOnce s d = none := by
  induction s with
  | nil => rfl
  | cons c r ih =>
    simp only [splitOnce]
    rw [if_neg (fun e => h (by rw [← e]; exact List.mem_cons_self c r)),
      ih (fun hm => h (List.mem_cons_of_mem c hm))]
    rfl

theorem parseF32_digits {s : List Char} (hne : s ≠ []) (hs : isDigits s = true) :
    parseF32 s = some ((digitsVal s : ℚ)) := by
  have hdot : ('.' : Char) ∉ s := isDigits_not_mem hs (by decide)
  unfold parseF32
  rw [if_neg (headD_ne_plus hne hs), if_neg (headD_ne_minus hne hs)]
  unfold parseF32core
  rw [splitOnce_eq_none hdot, parseDigits_digits hne hs]
  rfl

theorem utf8Size_one_of_isDigit {c : Char} (h : c.isDigit = true) : c.utf8Size = 1 := by
  simp only [Char.isDigit, Bool.and_eq_true, decide_eq_true_eq] at h
  have h57 : (57 : UInt32) ≤ UInt32.ofNatCore 127 (by decide) := by decide
  simp only [Char.utf8Size]
  split_ifs with h1 h2 h3 <;>
    first
      | rfl
      | exact absurd (UInt32.le_trans h.2 h57) h1

theorem utf8Size_one_of_hemisphereSign {c : Char} {sign : Int}
    (hc : hemisphereSign c = some sign) : c.utf8Size = 1 := by
  unfold hemisphereSign at hc
  split_ifs at hc with h1 h2 h3 h4
  · subst h1; decide
  · subst h2; decide
  · subst h3; decide
  · subst h4; decide

theorem all_one_of_isDigits {s : List Char} (h : isDigits s = true) :
    ∀ x ∈ s, x.utf8Size = 1 := fun x hx =>
  utf8Size_one_of_isDigit (List.all_eq_true.mp h x hx)

theorem dropBytes_zero (s : List Char) : dropBytes s 0 = some s := by
  cases s <;> rfl

theorem takeBytes_zero (s : List Char) : takeBytes s 0 = some [] := by
  cases s <;> rfl

theorem dropBytes_cons_one {c : Char} (h : c.utf8Size = 1) (x : List Char) (a : Nat) :
    dropBytes (c :: x) (a + 1) = dropBytes x a := by
  simp only [dropBytes]
  rw [h, if_pos (by omega), Nat.add_sub_cancel]

theorem takeBytes_cons_one {c : Char} (h : c.utf8Size = 1) (x : List Char) (a : Nat) :
    takeBytes (c :: x) (a + 1) = (takeBytes x a).map (fun t => c :: t) := by
  simp only [takeBytes]
  rw [h, if_pos (by omega), Nat.add_sub_cancel]

theorem dropBytes_cons_one1 {c : Char} (h : c.utf8Size = 1) (x : List Char) :
    dropBytes (c :: x) 1 = some x := by
  rw [show (1 : Nat) = 0 + 1 from rfl, dropBytes_cons_one h, dropBytes_zero]

theorem dropBytes_append_add {l : List Char} (h : ∀ x ∈ l, x.utf8Size = 1)
    (rest : List Char) (k : Nat) :
    dropBytes (l ++ rest) (l.length + k) = dropBytes rest k := by
  induction l with
  | nil => simp
  | cons c r ih =>
    rw [List.cons_append, List.length_cons,
      show r.length + 1 + k = (r.length + k) + 1 from by omega,
      dropBytes_cons_one (h c (List.mem_cons_self c r))]
    exact ih fun x hx => h x (List.mem_cons_of_mem c hx)

theorem dropBytes_append_one {l : List Char} (h : ∀ x ∈ l, x.utf8Size = 1)
    (rest : List Char) : dropBytes (l ++ rest) l.length = some rest := by
  have he := dropBytes_append_add h rest 0
  rw [Nat.add_zero] at he
  rw [he]
  exact dropBytes_zero rest

theorem takeBytes_append_one {l : List Char} (h : ∀ x ∈ l, x.utf8Size = 1)
    (rest : List Char) : takeBytes (l ++ rest) l.length = some l := by
  induction l with
  | nil => simp [takeBytes_zero]
  | cons c r ih =>
    rw [List.cons_append, List.length_cons,
      takeBytes_cons_one (h c (List.mem_cons_self c r)),
      ih fun x hx => h x (List.mem_cons_of_mem c hx)]
    rfl

theorem dropBytes_of_all_one {s : List Char} (h : ∀ c ∈ s, c.utf8Size = 1) :
    ∀ a : Nat, a ≤ s.length → dropBytes s a = some (s.drop a) := by
  induction s with
  | nil =>
    intro a ha
    cases a with
    | zero => rfl
    | succ k => simp at ha
  | cons c r ih =>
    intro a ha
    cases a with
    | zero => exact dropBytes_zero _
    | succ k =>
      rw [dropBytes_cons_one (h c (List.mem_cons_self c r)), List.drop_succ_cons]
      exact ih (fun x hx => h x (List.mem_cons_of_mem c hx)) k
        (by simp only [List.length_cons] at ha; omega)

theorem takeBytes_of_all_one {s : List Char} (h : ∀ c ∈ s, c.utf8Size = 1) :
    ∀ a : Nat, a ≤ s.length → takeBytes s a = some (s.take a) := by
  induction s with
  | nil =>
    intro a ha
    cases a with
    | zero => rfl
    | succ k => simp at ha
  | cons c r ih =>
    intro a ha
    cases a with
    | zero => rfl
    | succ k =>
      rw [takeBytes_cons_one (h c (List.mem_cons_self c r)),
        ih (fun x hx => h x (List.mem_cons_of_mem c hx)) k
          (by simp only [List.length_cons] at ha; omega),
        List.take_succ_cons]
      rfl

theorem sliceRange_of_all_one {s : List Char} (h : ∀ c ∈ s, c.utf8Size = 1)
    {a b : Nat} (hab : a ≤ b) (hb : b ≤ s.length) :
    sliceRange s a b = some ((s.drop a).take (b - a)) := by
  unfold sliceRange
  rw [if_pos hab, dropBytes_of_all_one h a (le_trans hab hb)]
  show takeBytes (s.drop a) (b - a) = some ((s.drop a).take (b - a))
  exact takeBytes_of_all_one (fun c hc => h c (List.mem_of_mem_drop hc)) (b - a)
    (by rw [List.length_drop]; omega)

theorem sliceFrom_of_all_one {s : List Char} (h : ∀ c ∈ s, c.utf8Size = 1)
    {a : Nat} (ha : a ≤ s.length) : sliceFrom s a = some (s.drop a) :=
  dropBytes_of_all_one h a ha

theorem sliceRange_first {c : Char} {l rest : List Char} {n : Nat}
    (hc : c.utf8Size = 1) (hl : ∀ x ∈ l, x.utf8Size = 1) (h : l.length = n) :
    sliceRange (c :: (l ++ rest)) 1 (1 + n) = some l := by
  unfold sliceRange
  rw [if_pos (by omega), dropBytes_cons_one1 hc]
  show takeBytes (l ++ rest) (1 + n - 1) = some l
  rw [show 1 + n - 1 = n from by omega, ← h]
  exact takeBytes_append_one hl rest

theorem sliceRange_second {c : Char} {l m rest : List Char} {n : Nat}
    (hc : c.utf8Size = 1) (hl : ∀ x ∈ l, x.utf8Size = 1)
    (hm1 : ∀ x ∈ m, x.utf8Size = 1)
    (hln : l.length = n) (hml : m.length = 2) :
    sliceRange (c :: (l ++ (m ++ rest))) (1 + n) (3 + n) = some m := by
  unfold sliceRange
  rw [if_pos (by omega), show 1 + n = n + 1 from by omega,
    dropBytes_cons_one hc, ← hln, dropBytes_append_one hl (m ++ rest)]
  show takeBytes (m ++ rest) (3 + l.length - (l.length + 1)) = some m
  rw [show 3 + l.length - (l.length + 1) = 2 from by omega, ← hml]
  exact takeBytes_append_one hm1 rest

theorem sliceFrom_third {c : Char} {l m rest : List Char} {n : Nat}
    (hc : c.utf8Size = 1) (hl : ∀ x ∈ l, x.utf8Size = 1)
    (hm1 : ∀ x ∈ m, x.utf8Size = 1)
    (hln : l.length = n) (hml : m.length = 2) :
    sliceFrom (c :: (l ++ (m ++ rest))) (3 + n) = some rest := by
  show dropBytes (c :: (l ++ (m ++ rest))) (3 + n) = some rest
  rw [show 3 + n = (n + 2) + 1 from by omega, dropBytes_cons_one hc, ← hln,
    dropBytes_append_add hl (m ++ rest) 2]
  rw [← hml]
  exact dropBytes_append_one hm1 rest

/-- Evaluation of `Coordinate::from_str` on a well-formed token: hemisphere
letter, all-digit degrees field of width `2 + offset`, all-digit two-character
minutes field, and a seconds field accepted by the float parser. -/
theorem from_str_digit_fields {c : Char} {sign : Int} {ds ms ss : List Char} {q : ℚ}
    (hc : hemisphereSign c = some sign)
    (hd : ds.length = 2 + hemisphereOffset c) (hdd : isDigits ds = true)
    (hm : ms.length = 2) (hmd : isDigits ms = true)
    (hs : parseF32 ss = some q) :
    Coordinate.from_str (c :: (ds ++ (ms ++ ss))) =
      .ok ⟨sign * digitsVal ds, digitsVal ms, q⟩ := by
  have hne : ds ≠ [] := by
    intro e
    rw [e] at hd
    simp at hd
    omega
  have hmne : ms ≠ [] := by intro e; rw [e] at hm; simp at hm
  have hdb : digitsVal ds ≤ 2147483647 := by
    have hlt := digitsVal_lt hdd
    rw [hd] at hlt
    have hoff : hemisphereOffset c ≤ 1 := by
      unfold hemisphereOffset
      split
      · omega
      · split <;> omega
    have hpow : 10 ^ (2 + hemisphereOffset c) ≤ 10 ^ 3 :=
      Nat.pow_le_pow_right (by norm_num) (by omega)
    omega
  have hmb : digitsVal ms ≤ 4294967295 := by
    have hlt := digitsVal_lt hmd
    rw [hm] at hlt
    omega
  have hc1 : c.utf8Size = 1 := utf8Size_one_of_hemisphereSign hc
  have hl1 : ∀ x ∈ ds, x.utf8Size = 1 := all_one_of_isDigits hdd
  have hm1 : ∀ x ∈ ms, x.utf8Size = 1 := all_one_of_isDigits hmd
  have e1 : 3 + hemisphereOffset c = 1 + (2 + hemisphereOffset c) := by omega
  have e2 : 5 + hemisphereOffset c = 3 + (2 + hemisphereOffset c) := by omega
  simp only [Coordinate.from_str, List.headD_cons, hc, e1, e2,
    sliceRange_first hc1 hl1 hd, sliceRange_second hc1 hl1 hm1 hd hm,
    sliceFrom_third hc1 hl1 hm1 hd hm,
    parseI32_digits hne hdd hdb, parseU32_digits hmne hmd hmb, hs]

theorem digitsVal_replicate_zero (n : Nat) : digitsVal (List.replicate n '0') = 0 := by
  unfold digitsVal
  induction n with
  | zero => rfl
  | succ k ih =>
    rw [List.replicate_succ, digitsValAux_cons,
      show 10 * 0 + digitVal '0' = 0 from by decide]
    exact ih

theorem isDigits_replicate_zero (n : Nat) : isDigits (List.replicate n '0') = true := by
  unfold isDigits
  exact List.all_eq_true.mpr fun x hx => by rw [List.eq_of_mem_replicate hx]; decide

/-- Claim C1: the code does NOT compute `sign * (deg + min/60 + sec/3600)`.
On the token `W0174530` it parses degrees = -17, minutes = 45, seconds = 30 and
converts to `-17 + 45/60 + 30/3600 = -1949/120 ≈ -16.2417`, while the claimed
value is `-(17 + 45/60 + 30/3600) = -2131/120 ≈ -17.7583`: the hemisphere sign
is applied to the degrees component only, never to the minutes/seconds
contribution. -/
theorem C1_sign_divergence :
    Coordinate.from_str "W0174530".toList = .ok ⟨-17, 45, 30⟩ ∧
    Coordinate.to_decimal_degrees ⟨-17, 45, 30⟩ = -1949 / 120 ∧
    ¬ (-1949 / 120 : ℚ) = -(17 + 45 / 60 + 30 / 3600 : ℚ) := by
  refine ⟨by decide, by norm_num [Coordinate.to_decimal_degrees], by norm_num⟩

/-- Counterexample to claim C2: the token `S003000` (hemisphere S, degrees
field all zeros, minutes 30) parses successfully and converts to `+1/2`, which
is not negative: the hemisphere sign is lost at zero degrees. -/
theorem C2_counterexample :
    Coordinate.from_str "S003000".toList = .ok ⟨0, 30, 0⟩ ∧
    Coordinate.to_decimal_degrees ⟨0, 30, 0⟩ = 1 / 2 ∧
    ¬ Coordinate.to_decimal_degrees ⟨0, 30, 0⟩ < 0 := by
  refine ⟨by decide, by norm_num [Coordinate.to_decimal_degrees], ?_⟩
  norm_num [Coordinate.to_decimal_degrees]

/-- Claim C2 as amended: for every token with hemisphere `S` or `W`, an
all-zero degrees field, an all-digit minutes field and an all-digit seconds
field, parsing and converting yields a POSITIVE (hence non-negative) decimal
value whenever minutes or seconds are non-zero — the hemisphere sign is lost
at zero degrees. -/
theorem C2_zero_degrees_sign_lost (c : Char) (ms ss : List Char)
    (hc : c = 'S' ∨ c = 'W')
    (hm : ms.length = 2) (hmd : isDigits ms = true)
    (hsne : ss ≠ []) (hsd : isDigits ss = true)
    (hpos : 0 < digitsVal ms ∨ 0 < digitsVal ss) :
    ∃ a, Coordinate.from_str
        (c :: (List.replicate (2 + hemisphereOffset c) '0' ++ (ms ++ ss))) = .ok a ∧
      a.degrees = 0 ∧ 0 < Coordinate.to_decimal_degrees a := by
  have hsign : hemisphereSign c = some (-1) := by
    rcases hc with e | e <;> subst e <;> decide
  refine ⟨⟨-1 * digitsVal (List.replicate (2 + hemisphereOffset c) '0'),
      digitsVal ms, (digitsVal ss : ℚ)⟩,
    from_str_digit_fields hsign (List.length_replicate _ _)
      (isDigits_replicate_zero _) hm hmd (parseF32_digits hsne hsd), ?_, ?_⟩
  · rw [digitsVal_replicate_zero]
    rfl
  · rw [digitsVal_replicate_zero]
    unfold Coordinate.to_decimal_degrees
    have hms : (0 : ℚ) ≤ (digitsVal ms : ℚ) := Nat.cast_nonneg _
    have hss : (0 : ℚ) ≤ (digitsVal ss : ℚ) := Nat.cast_nonneg _
    rcases hpos with hp | hp
    · have hq : (0 : ℚ) < (digitsVal ms : ℚ) := by exact_mod_cast hp
      simp only []
      norm_num
      linarith
    · have hq : (0 : ℚ) < (digitsVal ss : ℚ) := by exact_mod_cast hp
      simp only []
      norm_num
      linarith

/-- Witness for the amended claim C2 at the concrete token `S003000`. -/
theorem C2_amended_witness :
    ∃ a, Coordinate.from_str
        ('S' :: (List.replicate (2 + hemisphereOffset 'S') '0' ++
          ("30".toList ++ "00".toList))) = .ok a ∧
      a.degrees = 0 ∧ 0 < Coordinate.to_decimal_degrees a :=
  C2_zero_degrees_sign_lost 'S' "30".toList "00".toList (Or.inl rfl)
    (by decide) (by decide) (by decide) (by decide) (Or.inl (by decide))

/-- Claim C5: a token made of a hemisphere letter with sign resolved by
`hemisphereSign`, an all-digit degrees field of width `2 + offset` (3 digits
for E/W, 2 for N/S), an all-digit two-character minutes field and a
float-parsable seconds field parses to the Angle with degrees
`sign * (degrees field)`, minutes the minutes field, and seconds the seconds
field. -/
theorem C5_wellformed_parse (c : Char) (sign : Int) (ds ms ss : List Char) (q : ℚ)
    (hc : hemisphereSign c = some sign)
    (hd : ds.length = 2 + hemisphereOffset c) (hdd : isDigits ds = true)
    (hm : ms.length = 2) (hmd : isDigits ms = true)
    (hs : parseF32 ss = some q) :
    Coordinate.from_str (c :: (ds ++ (ms ++ ss))) =
      .ok ⟨sign * digitsVal ds, digitsVal ms, q⟩ :=
  from_str_digit_fields hc hd hdd hm hmd hs

/-- Witness for claim C5 at the concrete token `E0174530`. -/
theorem C5_witness :
    Coordinate.from_str ('E' :: ("017".toList ++ ("45".toList ++ "30".toList))) =
      .ok ⟨1 * digitsVal "017".toList, digitsVal "45".toList, 30⟩ :=
  C5_wellformed_parse 'E' 1 "017".toList "45".toList "30".toList 30
    (by decide) (by decide) (by decide) (by decide) (by decide) (by decide)

/-- Claim C6: a token whose first character is a letter outside N, E, W, S is
rejected with the coordinate-parse error — no default hemisphere, no
recovery. -/
theorem C6_bad_hemisphere (c : Char) (r : List Char) (_halpha : c.isAlpha = true)
    (h1 : ¬ c = 'N') (h2 : ¬ c = 'E') (h3 : ¬ c = 'W') (h4 : ¬ c = 'S') :
    Coordinate.from_str (c :: r) = .err := by
  have hs : hemisphereSign c = none := by
    unfold hemisphereSign
    rw [if_neg h1, if_neg h2, if_neg h3, if_neg h4]
  simp [Coordinate.from_str, hs]

/-- Witness for claim C6 at the concrete token `X523000`. -/
theorem C6_witness : Coordinate.from_str ('X' :: "523000".toList) = .err :=
  C6_bad_hemisphere 'X' "523000".toList (by decide)
    (by decide) (by decide) (by decide) (by decide)

/-- Claim C7: `to_decimal_degrees` computes exactly
`degrees + minutes/60 + seconds/3600` (with degrees already signed), and the
token `N523000` converts to `105/2 = 52.5`. -/
theorem C7_decimal_formula :
    (∀ a : Coordinate, Coordinate.to_decimal_degrees a =
      (a.degrees : ℚ) + (a.minutes : ℚ) / 60 + a.seconds / 3600) ∧
    Coordinate.from_str "N523000".toList = .ok ⟨52, 30, 0⟩ ∧
    Coordinate.to_decimal_degrees ⟨52, 30, 0⟩ = 105 / 2 := by
  refine ⟨fun a => rfl, by decide, by norm_num [Coordinate.to_decimal_degrees]⟩

/-- Counterexample to claim C8: the seconds field is parsed with Rust float
parsing, which accepts a sign, so the token `N5230-30` parses successfully
with seconds = -30 — the seconds component is NOT always non-negative. -/
theorem C8_counterexample :
    Coordinate.from_str "N5230-30".toList = .ok ⟨52, 30, -30⟩ ∧
    ¬ (0 : ℚ) ≤ (Coordinate.mk 52 30 (-30)).seconds := by
  refine ⟨by decide, ?_⟩
  show ¬ (0 : ℚ) ≤ -30
  norm_num

/-- Claim C8 as amended: when the numeric fields are unsigned digit strings
(the nominal token grammar), the degrees component carries the hemisphere sign
(non-negative for N/E, non-positive for W/S) and the minutes and seconds
components are non-negative.  A signed seconds field (accepted by float
parsing) can produce a negative seconds component, and a signed degrees field
can flip the degrees sign. -/
theorem C8_signs (c : Char) (sign : Int) (ds ms ss : List Char)
    (hc : hemisphereSign c = some sign)
    (hd : ds.length = 2 + hemisphereOffset c) (hdd : isDigits ds = true)
    (hm : ms.length = 2) (hmd : isDigits ms = true)
    (hsne : ss ≠ []) (hsd : isDigits ss = true) :
    ∃ a, Coordinate.from_str (c :: (ds ++ (ms ++ ss))) = .ok a ∧
      ((c = 'N' ∨ c = 'E') → 0 ≤ a.degrees) ∧
      ((c = 'W' ∨ c = 'S') → a.degrees ≤ 0) ∧
      0 ≤ (a.minutes : Int) ∧ 0 ≤ a.seconds := by
  refine ⟨⟨sign * digitsVal ds, digitsVal ms, (digitsVal ss : ℚ)⟩,
    from_str_digit_fields hc hd hdd hm hmd (parseF32_digits hsne hsd),
    ?_, ?_, ?_, ?_⟩
  · rintro (e | e) <;> subst e <;> simp [hemisphereSign] at hc <;> subst hc <;>
      simp only [] <;> omega
  · rintro (e | e) <;> subst e <;> simp [hemisphereSign] at hc <;> subst hc <;>
      simp only [] <;> omega
  · omega
  · exact Nat.cast_nonneg _

/-- Witness for the amended claim C8 at the concrete token `N523000`. -/
theorem C8_witness :
    ∃ a, Coordinate.from_str ('N' :: ("52".toList ++ ("30".toList ++ "00".toList))) =
        .ok a ∧
      (('N' = 'N' ∨ 'N' = 'E') → 0 ≤ a.degrees) ∧
      (('N' = 'W' ∨ 'N' = 'S') → a.degrees ≤ 0) ∧
      0 ≤ (a.minutes : Int) ∧ 0 ≤ a.seconds :=
  C8_signs 'N' 1 "52".toList "30".toList "00".toList
    (by decide) (by decide) (by decide) (by decide) (by decide) (by decide) (by decide)

/-- Claim C9: `Waypoint::from_position` always succeeds; the identifier equals
the name, elevation passes through unchanged, the type tag, region and import
filename are fixed constants, and every other descriptive field is absent. -/
theorem C9_record_mapper (p : Position) (name : List Char) (elevation : Option ℚ) :
    ∃ w, Waypoint.from_position p name elevation = .ok w ∧
      w.ident = name ∧ w.name = name ∧ w.elevation = elevation ∧
      w.waypoint_type = "Airstrip".toList ∧ w.region = some "EP".toList ∧
      w.import_filename = some "skydemon_PL_missing.airfields.xml".toList ∧
      w.magnetic_declination = none ∧ w.tags = none ∧ w.description = none ∧
      w.visible_from = none ∧ w.last_edit = none ∧
      w.latitude = Coordinate.to_decimal_degrees p.lat ∧
      w.longitude = Coordinate.to_decimal_degrees p.lon :=
  ⟨_, rfl, rfl, rfl, rfl, rfl, rfl, rfl, rfl, rfl, rfl, rfl, rfl, rfl, rfl⟩

/-- Counterexample to claim C3: on an input with no space,
`Position::from_str` panics (the `unwrap` on `split_once`) — it does not
return the declared `ParsePositionError`. -/
theorem C3_counterexample :
    Position.from_str "N523000".toList = .panic ∧
    ¬ Position.from_str "N523000".toList = .err := by
  exact ⟨by decide, by decide⟩

/-- Claim C3 as amended: an input with no space makes `Position::from_str`
panic, a coordinate-parse failure in either sub-token makes it panic, and a
successfully returned `Position` always comes from two successful sub-parses
(no partial Position) — but the failures are panics, never a returned
`Err(ParsePositionError)`. -/
theorem C3_hard_failures (s : List Char) :
    (splitOnce s ' ' = none → Position.from_str s = .panic) ∧
    (∀ pr, splitOnce s ' ' = some pr →
      (∀ a, ¬ Coordinate.from_str pr.1 = .ok a) → Position.from_str s = .panic) ∧
    (∀ pr la, splitOnce s ' ' = some pr → Coordinate.from_str pr.1 = .ok la →
      (∀ b, ¬ Coordinate.from_str pr.2 = .ok b) → Position.from_str s = .panic) ∧
    (∀ p, Position.from_str s = .ok p →
      ∃ pr, splitOnce s ' ' = some pr ∧
        Coordinate.from_str pr.1 = .ok p.lat ∧ Coordinate.from_str pr.2 = .ok p.lon) := by
  refine ⟨?_, ?_, ?_, ?_⟩
  · intro h
    simp [Position.from_str, h]
  · intro pr h hfail
    simp only [Position.from_str, h]
    cases hc : Coordinate.from_str pr.1 with
    | ok a => exact absurd hc (hfail a)
    | err => rfl
    | panic => rfl
  · intro pr la h hla hfail
    simp only [Position.from_str, h, hla]
    cases hc : Coordinate.from_str pr.2 with
    | ok b => exact absurd hc (hfail b)
    | err => rfl
    | panic => rfl
  · intro p hp
    cases hsp : splitOnce s ' ' with
    | none =>
      have he : Position.from_str s = .panic := by
        unfold Position.from_str
        rw [hsp]
      rw [he] at hp
      exact PosResult.noConfusion hp
    | some pr =>
      have he : Position.from_str s =
          (match Coordinate.from_str pr.1 with
            | .ok lat =>
              match Coordinate.from_str pr.2 with
              | .ok lon => .ok ⟨lat, lon⟩
              | .err => .panic
              | .panic => .panic
            | .err => .panic
            | .panic => .panic) := by
        unfold Position.from_str
        rw [hsp]
      rw [he] at hp
      cases hc1 : Coordinate.from_str pr.1 with
      | err => rw [hc1] at hp; exact PosResult.noConfusion hp
      | panic => rw [hc1] at hp; exact PosResult.noConfusion hp
      | ok la =>
        rw [hc1] at hp
        cases hc2 : Coordinate.from_str pr.2 with
        | err => rw [hc2] at hp; exact PosResult.noConfusion hp
        | panic => rw [hc2] at hp; exact PosResult.noConfusion hp
        | ok lo =>
          rw [hc2] at hp
          simp only [PosResult.ok.injEq] at hp
          subst hp
          exact ⟨pr, rfl, hc1, hc2⟩

/-- Witness for the amended claim C3: the combined token `X23 E0174530` has a
bad first sub-token, and the position parse panics on the `unwrap`. -/
theorem C3_witness : Position.from_str "X23 E0174530".toList = .panic := by
  apply (C3_hard_failures "X23 E0174530".toList).2.1 ("X23".toList, "E0174530".toList)
  · decide
  · intro a ha
    rw [show Coordinate.from_str "X23".toList = .err from by decide] at ha
    exact CoordResult.noConfusion ha

/-- Counterexample to claim C4: `Coordinate::from_str` is NOT total — on the
token `N1`, too short for the fixed-width layout, the slice `&s[1..3]` panics
instead of returning a `ParseCoordinateError`. -/
theorem C4_counterexample :
    Coordinate.from_str "N1".toList = .panic ∧
    ¬ Coordinate.from_str "N1".toList = .err := by
  exact ⟨by decide, by decide⟩

/-- Claim C4 as amended: for ASCII tokens (every character a single UTF-8
byte) long enough for the fixed-width layout (length at least `5 + offset`),
`Coordinate::from_str` never panics: every failing field parse (non-numeric
content) yields the coordinate-parse error, and otherwise the parse succeeds.
Shorter tokens panic on slicing, and so can long tokens containing multi-byte
characters, whose fixed byte offsets may fall off a character boundary. -/
theorem C4_no_panic (s : List Char)
    (hascii : ∀ c ∈ s, c.utf8Size = 1)
    (h : 5 + hemisphereOffset (s.headD 'N') ≤ s.length) :
    Coordinate.from_str s = .err ∨ ∃ a, Coordinate.from_str s = .ok a := by
  have h1 : sliceRange s 1 (3 + hemisphereOffset (s.headD 'N')) =
      some ((s.drop 1).take (3 + hemisphereOffset (s.headD 'N') - 1)) :=
    sliceRange_of_all_one hascii (by omega) (by omega)
  have h2 : sliceRange s (3 + hemisphereOffset (s.headD 'N'))
      (5 + hemisphereOffset (s.headD 'N')) =
      some ((s.drop (3 + hemisphereOffset (s.headD 'N'))).take
        (5 + hemisphereOffset (s.headD 'N') - (3 + hemisphereOffset (s.headD 'N')))) :=
    sliceRange_of_all_one hascii (by omega) (by omega)
  have h3 : sliceFrom s (5 + hemisphereOffset (s.headD 'N')) =
      some (s.drop (5 + hemisphereOffset (s.headD 'N'))) :=
    sliceFrom_of_all_one hascii (by omega)
  cases hsg : hemisphereSign (s.headD 'N') with
  | none => left; simp only [Coordinate.from_str, hsg]
  | some sign =>
    cases hp1 : parseI32 ((s.drop 1).take (3 + hemisphereOffset (s.headD 'N') - 1)) with
    | none => left; simp only [Coordinate.from_str, hsg, h1, hp1]
    | some d =>
      cases hp2 : parseU32 ((s.drop (3 + hemisphereOffset (s.headD 'N'))).take
          (5 + hemisphereOffset (s.headD 'N') - (3 + hemisphereOffset (s.headD 'N')))) with
      | none => left; simp only [Coordinate.from_str, hsg, h1, hp1, h2, hp2]
      | some m =>
        cases hp3 : parseF32 (s.drop (5 + hemisphereOffset (s.headD 'N'))) with
        | none => left; simp only [Coordinate.from_str, hsg, h1, hp1, h2, hp2, h3, hp3]
        | some q =>
          right
          exact ⟨⟨sign * d, m, q⟩,
            by simp only [Coordinate.from_str, hsg, h1, hp1, h2, hp2, h3, hp3]⟩

/-- Witness for the amended claim C4 at the concrete token `N523000`. -/
theorem C4_witness :
    Coordinate.from_str "N523000".toList = .err ∨
      ∃ a, Coordinate.from_str "N523000".toList = .ok a :=
  C4_no_panic "N523000".toList (by decide) (by decide)

/-- Claim C10: `Position::from_str` never returns its declared error value:
every evaluation either panics (no space, or a failed sub-parse hits an
`unwrap`) or returns `Ok` — `Err(ParsePositionError)` is unreachable. -/
theorem C10_err_unreachable (s : List Char) :
    Position.from_str s = .panic ∨ ∃ p, Position.from_str s = .ok p := by
  cases hsp : splitOnce s ' ' with
  | none => left; simp [Position.from_str, hsp]
  | some pr =>
    cases hc1 : Coordinate.from_str pr.1 with
    | ok la =>
      cases hc2 : Coordinate.from_str pr.2 with
      | ok lo => right; exact ⟨⟨la, lo⟩, by simp [Position.from_str, hsp, hc1, hc2]⟩
      | err => left; simp [Position.from_str, hsp, hc1, hc2]
      | panic => left; simp [Position.from_str, hsp, hc1, hc2]
    | err => left; simp [Position.from_str, hsp, hc1]
    | panic => left; simp [Position.from_str, hsp, hc1]

end PolishAirports
